import Mathlib

/-!
Shallow embedding of `investment.py` (AI-Stock-Predictor).

The pipeline's external collaborators (yfinance market data, the Groq chat
completion endpoint) are modelled as an explicit environment `Env` of response
functions; every pipeline function is a pure function of the symbol list and
the environment.  Each stage additionally returns the ordered list of prompts
it sent to the completion backend, so that call counts and prompt contents can
be stated.

Modelling conventions:
* Closing prices are rationals (`ℚ`); pandas `pct_change` division by a zero
  price (which would give `inf`) is outside the model, as the claims never
  exercise it (Lean's `ℚ` division by zero yields 0 there).
* A Python `dict` is an insertion-ordered association list; assigning to an
  existing key updates the value in place, a new key is appended at the end
  (exactly CPython's dict semantics).
* f-string interpolation of a `list`/`dict` of strings uses Python's `str`,
  which renders elements with `repr`; `pyReprStr` reproduces `repr` for
  strings made of printable characters plus backslash, newline, carriage
  return and tab (quote-selection rule included).  Numeric values (the
  pandas float sums) are rendered abstractly via `ℚ`'s `toString`; no claim
  depends on float digit formatting.  News payloads (dicts in yfinance) are
  modelled as opaque strings.
* An exception raised by a provider call inside `compare_stocks`'s `try` is an
  `Except.error` in the history fetch; `hist.empty` corresponds to `.ok []`.
* `get_company_info` and `get_company_news` have no exception handler in the
  source, so a provider exception raised by the `stock.info` / `stock.news`
  access propagates out of the pipeline.  The environment carries that
  behaviour (`Env.infoRaises`, `Env.newsRaises`); the `Except`-valued
  functions suffixed `E` are the full translation including propagation,
  and the unsuffixed pipeline functions are their values on non-raising
  environments (`get_final_reportE_agree`).
-/

/-- Behaviour of the Groq chat-completions backend for one request: the
`requests.post` call raises, `raise_for_status` raises on a non-2xx status,
the JSON body lacks the `choices[0].message.content` path (`KeyError` /
`IndexError`), or the call succeeds with the generated text. -/
inductive GroqResponse where
  | postRaises (msg : String)
  | badStatus (msg : String)
  | badShape (msg : String)
  | success (content : String)
deriving DecidableEq, Repr

/-- The external world as seen by `investment.py`: per-symbol 6-month price
history (possibly an exception, possibly empty), the `stock.info` access
(`infoRaises s = some e` means the provider raises `e` when `.info` is
touched for `s`; otherwise `info` is the returned record's key lookup), the
`stock.news` access (`newsRaises` likewise, else `hasattr(stock, "news")`
and the news list), and the completion backend's behaviour per prompt.

The source guards only the history fetch with `try`/`except`
(`compare_stocks`); `get_company_info` and `get_company_news` have no
handler, so a provider exception on `.info` or `.news` propagates — the
embedding keeps that path in the `...E` functions below. -/
structure Env where
  hist : String → Except String (List ℚ)
  infoRaises : String → Option String
  info : String → String → Option String
  newsRaises : String → Option String
  hasNews : String → Bool
  news : String → List String
  groq : String → GroqResponse

/- ----------------- Python dict / repr helpers ----------------- -/

/-- `d[k] = v` on an insertion-ordered dict: update in place if the key is
present, else append at the end. -/
def dictInsert {α : Type} : List (String × α) → String → α → List (String × α)
  | [], k, v => [(k, v)]
  | (k0, v0) :: rest, k, v =>
    if k0 = k then (k0, v) :: rest else (k0, v0) :: dictInsert rest k v

/-- `d.get(k)` / `d[k]` lookup. -/
def dictLookup {α : Type} : List (String × α) → String → Option α
  | [], _ => none
  | (k0, v0) :: rest, k => if k0 = k then some v0 else dictLookup rest k

/-- The dict's key sequence (insertion order). -/
def dictKeys {α : Type} (d : List (String × α)) : List String := d.map (·.1)

/-- Keep the first occurrence of each element, preserving order — the key
order of a dict built by iterated insertion. -/
def firstDedup : List String → List String
  | [] => []
  | a :: l => a :: (firstDedup l).filter (fun x => !(x = a : Bool))

/-- Python `repr` escaping for one character, given the chosen quote char. -/
def pyEscapeChar (q : Char) (c : Char) : String :=
  if c = '\\' then "\\\\"
  else if c = q then "\\" ++ String.singleton q
  else if c = '\n' then "\\n"
  else if c = '\r' then "\\r"
  else if c = '\t' then "\\t"
  else String.singleton c

/-- Python `repr` of a `str`: single quotes by default; double quotes when the
string contains a single quote but no double quote. -/
def pyReprStr (s : String) : String :=
  let sq : Char := Char.ofNat 39
  let q : Char := if s.data.contains sq ∧ ¬ s.data.contains '"' then '"' else sq
  String.singleton q ++ String.join (s.data.map (pyEscapeChar q)) ++ String.singleton q

/-- Python `str` of a list of strings, as interpolated by an f-string. -/
def pyReprStrList (l : List String) : String :=
  "[" ++ String.intercalate ", " (l.map pyReprStr) ++ "]"

/-- Python `str` of a `dict[str, str]`, as interpolated by an f-string. -/
def pyReprStrDict (d : List (String × String)) : String :=
  "\x7b" ++
    String.intercalate ", " (d.map (fun p => pyReprStr p.1 ++ ": " ++ pyReprStr p.2)) ++
  "\x7d"

/-- Python `str` of the `dict[str, float]` performance map (float rendering
abstracted through `ℚ`'s `toString`). -/
def pyReprRatDict (d : List (String × ℚ)) : String :=
  "\x7b" ++
    String.intercalate ", " (d.map (fun p => pyReprStr p.1 ++ ": " ++ toString p.2)) ++
  "\x7d"

/- ----------------- GROQ CHAT FUNCTION ----------------- -/

/-- The body of `ask_groq`'s `try` block: post the request, check the status,
extract `choices[0].message.content`; each failure mode is the corresponding
Python exception. -/
def askGroqTry (env : Env) (prompt : String) : Except String String :=
  match env.groq prompt with
  | .postRaises m => .error m
  | .badStatus m => .error m
  | .badShape m => .error m
  | .success c => .ok c

/-- `ask_groq(prompt)`: returns the generated text, or on any exception the
string `"Groq API Error: " + str(e)`.  The second component is the one-element
trace of prompts sent to the backend. -/
def ask_groq (env : Env) (prompt : String) : String × List String :=
  (match askGroqTry env prompt with
   | .ok c => c
   | .error e => "Groq API Error: " ++ e,
   [prompt])

/- ----------------- STOCK HELPERS ----------------- -/

/-- `hist['Close'].pct_change().sum()`: the first row's change is `NaN` and is
skipped by `sum`; every later row contributes `(cᵢ - cᵢ₋₁) / cᵢ₋₁`. -/
def pctChangeSumFrom (prev : ℚ) : List ℚ → ℚ
  | [] => 0
  | c :: rest => (c - prev) / prev + pctChangeSumFrom c rest

/-- Sum of successive period-over-period fractional changes of a price list. -/
def pctChangeSum : List ℚ → ℚ
  | [] => 0
  | c :: rest => pctChangeSumFrom c rest

/-- The `for symbol in symbols` loop of `compare_stocks`, with the dict
accumulator: an exception in the `try` prints and continues; an empty history
continues; otherwise `data[symbol] = hist['Close'].pct_change().sum()`. -/
def compareLoop (env : Env) : List String → List (String × ℚ) → List (String × ℚ)
  | [], acc => acc
  | s :: rest, acc =>
    match env.hist s with
    | .error _ => compareLoop env rest acc
    | .ok h =>
      if h = [] then compareLoop env rest acc
      else compareLoop env rest (dictInsert acc s (pctChangeSum h))

/-- `compare_stocks(symbols)`. -/
def compare_stocks (env : Env) (symbols : List String) : List (String × ℚ) :=
  compareLoop env symbols []

/-- Whether the fetched history for `s` is a successful, non-empty fetch (the
condition under which `compare_stocks` records the symbol). -/
def histOk (env : Env) (s : String) : Bool :=
  match env.hist s with
  | .error _ => false
  | .ok h => !(h = [] : Bool)

/-- The value `compare_stocks` records for a successful symbol. -/
def pctVal (env : Env) (s : String) : ℚ :=
  match env.hist s with
  | .error _ => 0
  | .ok h => pctChangeSum h

/-- The four-field record returned by `get_company_info`. -/
structure CompanyInfo where
  name : String
  sector : String
  market_cap : String
  summary : String
deriving DecidableEq, Repr

/-- `get_company_info(symbol)` when the `stock.info` access returns a record
(the raising case, which the source does not catch, is `get_company_infoE`):
each field is `stock.info.get(key, fallback)`; the `longName` fallback is the
symbol itself, the other three fall back to `"N/A"`. -/
def get_company_info (env : Env) (symbol : String) : CompanyInfo :=
  { name := (env.info symbol "longName").getD symbol
    sector := (env.info symbol "sector").getD "N/A"
    market_cap := (env.info symbol "marketCap").getD "N/A"
    summary := (env.info symbol "longBusinessSummary").getD "N/A" }

/-- `get_company_news(symbol)` when the `stock.news` access returns (the
raising case, which the source does not catch, is `get_company_newsE`):
`stock.news[:5] if hasattr(stock, "news") else []`. -/
def get_company_news (env : Env) (symbol : String) : List String :=
  if env.hasNews symbol then (env.news symbol).take 5 else []

/- ----------------- AI LOGIC LAYERS ----------------- -/

/-- The prompt of `get_market_analysis` (f-string embedding the dict). -/
def marketPrompt (data : List (String × ℚ)) : String :=
  "Compare these stock performances over the last 6 months: " ++ pyReprRatDict data

/-- `get_market_analysis(symbols)` with its completion-call trace. -/
def get_market_analysis (env : Env) (symbols : List String) : String × List String :=
  let data := compare_stocks env symbols
  if data = [] then ("No valid stock data found.", [])
  else ask_groq env (marketPrompt data)

/-- The prompt of `get_company_analysis` (multi-line f-string). -/
def companyPrompt (info : CompanyInfo) (news : List String) : String :=
  "Analyze the following company:\n" ++
    "Name: " ++ info.name ++ "\n" ++
    "Sector: " ++ info.sector ++ "\n" ++
    "Market Cap: " ++ info.market_cap ++ "\n" ++
    "Summary: " ++ info.summary ++ "\n" ++
    "Recent News: " ++ pyReprStrList news

/-- `get_company_analysis(symbol)` with its completion-call trace. -/
def get_company_analysis (env : Env) (symbol : String) : String × List String :=
  ask_groq env (companyPrompt (get_company_info env symbol) (get_company_news env symbol))

/-- The dict comprehension `{symbol: get_company_analysis(symbol) for symbol
in symbols}` together with the concatenated completion-call traces of the
comprehension's calls (one call per occurrence, in list order). -/
def company_dataT (env : Env) (symbols : List String) :
    List (String × String) × List String :=
  symbols.foldl
    (fun p s =>
      let a := get_company_analysis env s
      (dictInsert p.1 s a.1, p.2 ++ a.2))
    ([], [])

/-- The triple-quoted f-string prompt of `get_stock_recommendations`. -/
def recsPrompt (analysis : String) (company_data : List (String × String)) : String :=
  "\n    Based on this market analysis: " ++ analysis ++
    "\n    And the following company data: " ++ pyReprStrDict company_data ++
    "\n    Which stocks would you recommend to invest in and why?\n    "

/-- `get_stock_recommendations(symbols)` with its completion-call trace. -/
def get_stock_recommendations (env : Env) (symbols : List String) : String × List String :=
  let ma := get_market_analysis env symbols
  let cd := company_dataT env symbols
  let r := ask_groq env (recsPrompt ma.1 cd.1)
  (r.1, ma.2 ++ cd.2 ++ r.2)

/-- The triple-quoted f-string prompt of `get_final_report`. -/
def finalPrompt (market : String) (companies : List String) (recs : String) : String :=
  "\n    Market Overview:\n    " ++ market ++
    "\n\n    Company Profiles:\n    " ++ pyReprStrList companies ++
    "\n\n    Recommendations:\n    " ++ recs ++
    "\n\n    Now, generate a complete investment report including performance, fundamentals, and a ranked list of the top stocks.\n    "

/-- `get_final_report(symbols)` with the full completion-call trace of the
whole invocation (market analysis, per-symbol company analyses, the
recommendation stage's recomputation, and the final call). -/
def get_final_report (env : Env) (symbols : List String) : String × List String :=
  let market := get_market_analysis env symbols
  let companiesT := symbols.map (get_company_analysis env)
  let companies := companiesT.map (·.1)
  let recs := get_stock_recommendations env symbols
  let fp := finalPrompt market.1 companies recs.1
  let final := ask_groq env fp
  (final.1, market.2 ++ companiesT.flatMap (·.2) ++ recs.2 ++ final.2)

/- ----------------- exception-propagating translation ----------------- -/

/-- `get_company_info(symbol)` with the uncaught provider-exception path: the
`stock.info` access either raises (propagated, as the source has no handler)
or yields the record whose fields `get_company_info` reads. -/
def get_company_infoE (env : Env) (symbol : String) : Except String CompanyInfo :=
  match env.infoRaises symbol with
  | some e => .error e
  | none => .ok (get_company_info env symbol)

/-- `get_company_news(symbol)` with the uncaught provider-exception path of
the `stock.news` access. -/
def get_company_newsE (env : Env) (symbol : String) : Except String (List String) :=
  match env.newsRaises symbol with
  | some e => .error e
  | none => .ok (get_company_news env symbol)

/-- `get_company_analysis(symbol)` with exception propagation: the source
fetches info, then news, with no handler, so either access's exception
escapes. -/
def get_company_analysisE (env : Env) (symbol : String) :
    Except String (String × List String) :=
  match get_company_infoE env symbol with
  | .error e => .error e
  | .ok info =>
    match get_company_newsE env symbol with
    | .error e => .error e
    | .ok news => .ok (ask_groq env (companyPrompt info news))

/-- The dict comprehension of `get_stock_recommendations` with exception
propagation: processing stops at the first symbol whose analysis raises. -/
def company_dataE (env : Env) :
    List String → List (String × String) × List String →
      Except String (List (String × String) × List String)
  | [], acc => .ok acc
  | s :: rest, acc =>
    match get_company_analysisE env s with
    | .error e => .error e
    | .ok a => company_dataE env rest (dictInsert acc.1 s a.1, acc.2 ++ a.2)

/-- The list comprehension of `get_final_report` with exception propagation. -/
def companiesE (env : Env) : List String → Except String (List (String × List String))
  | [] => .ok []
  | s :: rest =>
    match get_company_analysisE env s with
    | .error e => .error e
    | .ok a =>
      match companiesE env rest with
      | .error e => .error e
      | .ok l => .ok (a :: l)

/-- `get_stock_recommendations(symbols)` with exception propagation (the
market analysis itself cannot raise — its provider calls are guarded). -/
def get_stock_recommendationsE (env : Env) (symbols : List String) :
    Except String (String × List String) :=
  let ma := get_market_analysis env symbols
  match company_dataE env symbols ([], []) with
  | .error e => .error e
  | .ok cd =>
    let r := ask_groq env (recsPrompt ma.1 cd.1)
    .ok (r.1, ma.2 ++ cd.2 ++ r.2)

/-- `get_final_report(symbols)` as the caller sees it: a provider exception
raised while fetching any symbol's profile or news propagates out (the source
has no handler on that path); otherwise the run completes with the report and
its completion-call trace. -/
def get_final_reportE (env : Env) (symbols : List String) :
    Except String (String × List String) :=
  let market := get_market_analysis env symbols
  match companiesE env symbols with
  | .error e => .error e
  | .ok companiesT =>
    match get_stock_recommendationsE env symbols with
    | .error e => .error e
    | .ok recs =>
      let companies := companiesT.map (·.1)
      let fp := finalPrompt market.1 companies recs.1
      let final := ask_groq env fp
      .ok (final.1, market.2 ++ companiesT.flatMap (·.2) ++ recs.2 ++ final.2)

/- ----------------- dict lemmas ----------------- -/

theorem dictKeys_nil {α : Type} : dictKeys ([] : List (String × α)) = [] := rfl

theorem dictKeys_cons {α : Type} (k : String) (v : α) (d : List (String × α)) :
    dictKeys ((k, v) :: d) = k :: dictKeys d := rfl

theorem dictLookup_dictInsert {α : Type} (d : List (String × α)) (k : String) (v : α)
    (x : String) :
    dictLookup (dictInsert d k v) x = if k = x then some v else dictLookup d x := by
  induction d with
  | nil => rfl
  | cons p rest ih =>
    obtain ⟨k0, v0⟩ := p
    by_cases hk : k0 = k
    · subst hk
      simp only [dictInsert, if_pos rfl, dictLookup]
      by_cases hx : k0 = x <;> simp [hx]
    · simp only [dictInsert, if_neg hk, dictLookup, ih]
      by_cases hx : k0 = x
      · subst hx
        have : ¬ k0 = k := hk
        simp [show ¬ (k = k0) from fun h => hk h.symm]
      · simp [hx]

theorem dictKeys_dictInsert {α : Type} (d : List (String × α)) (k : String) (v : α) :
    dictKeys (dictInsert d k v) =
      if k ∈ dictKeys d then dictKeys d else dictKeys d ++ [k] := by
  induction d with
  | nil => simp [dictInsert, dictKeys]
  | cons p rest ih =>
    obtain ⟨k0, v0⟩ := p
    by_cases hk : k0 = k
    · subst hk
      simp [dictInsert, dictKeys]
    · simp only [dictInsert, if_neg hk, dictKeys_cons, ih]
      have hne : ¬ k = k0 := fun h => hk h.symm
      by_cases hmem : k ∈ dictKeys rest
      · simp [hmem, hne]
      · simp [hmem, hne]

/-- Looking up after folding `dictInsert` over a list with a per-key value
function: any key of the list maps to its value; other keys fall through to
the accumulator. -/
theorem dictLookup_insertFold {α : Type} (f : String → α) (x : String) :
    ∀ (syms : List String) (acc : List (String × α)),
      dictLookup (syms.foldl (fun d s => dictInsert d s (f s)) acc) x =
        if x ∈ syms then some (f x) else dictLookup acc x := by
  intro syms
  induction syms with
  | nil => simp
  | cons s rest ih =>
    intro acc
    simp only [List.foldl_cons, ih, dictLookup_dictInsert]
    by_cases hr : x ∈ rest
    · simp [hr]
    · by_cases hs : s = x
      · subst hs
        simp [hr]
      · have hxs : ¬ x = s := fun h => hs h.symm
        simp [hr, hs, List.mem_cons, hxs]

/-- Key order after folding `dictInsert` over a list: the accumulator's keys
first, then the first occurrences of the list's elements that are not already
accumulator keys, in order. -/
theorem dictKeys_insertFold {α : Type} (f : String → α) :
    ∀ (syms : List String) (acc : List (String × α)),
      dictKeys (syms.foldl (fun d s => dictInsert d s (f s)) acc) =
        dictKeys acc ++ (firstDedup syms).filter (fun x => !decide (x ∈ dictKeys acc)) := by
  intro syms
  induction syms with
  | nil => simp [firstDedup]
  | cons s rest ih =>
    intro acc
    rw [List.foldl_cons, ih]
    simp only [dictKeys_dictInsert, firstDedup, List.filter_cons, List.filter_filter]
    by_cases hmem : s ∈ dictKeys acc
    · simp only [if_pos hmem]
      have hPs : (!decide (s ∈ dictKeys acc)) = false := by simp [hmem]
      rw [hPs]
      simp only [Bool.false_eq_true, if_false]
      congr 1
      refine List.filter_congr ?_
      intro x _
      by_cases hx : x ∈ dictKeys acc
      · simp [hx]
      · have hxs : ¬ x = s := fun h => hx (h ▸ hmem)
        simp [hx, hxs]
    · simp only [if_neg hmem]
      have hPs : (!decide (s ∈ dictKeys acc)) = true := by simp [hmem]
      rw [hPs]
      rw [if_pos rfl, List.append_assoc, List.singleton_append]
      congr 1
      congr 1
      refine List.filter_congr ?_
      intro x _
      by_cases hx : x ∈ dictKeys acc
      · simp [List.mem_append, hx]
      · by_cases hxs : x = s <;> simp [List.mem_append, hx, hxs]

/- ----------------- compare_stocks characterization ----------------- -/

/-- The loop of `compare_stocks` is the fold of dict assignment over the
symbols whose fetch succeeded with non-empty history. -/
theorem compareLoop_eq_insertFold (env : Env) :
    ∀ (syms : List String) (acc : List (String × ℚ)),
      compareLoop env syms acc =
        (syms.filter (histOk env)).foldl (fun d s => dictInsert d s (pctVal env s)) acc := by
  intro syms
  induction syms with
  | nil => intro acc; rfl
  | cons s rest ih =>
    intro acc
    rcases henv : env.hist s with m | h
    · have hok : histOk env s = false := by simp [histOk, henv]
      simp only [compareLoop, henv, List.filter_cons, hok]
      simp [ih]
    · by_cases hempty : h = []
      · have hok : histOk env s = false := by simp [histOk, henv, hempty]
        simp only [compareLoop, henv, List.filter_cons, hok, if_pos hempty]
        simp [ih]
      · have hok : histOk env s = true := by simp [histOk, henv, hempty]
        have hval : pctVal env s = pctChangeSum h := by simp [pctVal, henv]
        simp only [compareLoop, henv, List.filter_cons, hok, if_neg hempty]
        simp [ih, hval]

/-- Lookup in the performance map: a symbol is present exactly when it occurs
in the list and its fetched history is non-empty, and then maps to the sum of
successive percentage changes. -/
theorem dictLookup_compare_stocks (env : Env) (symbols : List String) (x : String) :
    dictLookup (compare_stocks env symbols) x =
      if x ∈ symbols ∧ histOk env x = true then some (pctVal env x) else none := by
  rw [compare_stocks, compareLoop_eq_insertFold, dictLookup_insertFold]
  by_cases hx : x ∈ symbols ∧ histOk env x = true
  · rw [if_pos (by simp [List.mem_filter, hx.1, hx.2]), if_pos hx]
  · rw [if_neg (by simp only [List.mem_filter]; exact hx), if_neg hx]
    rfl

/-- Key order of the performance map: the first occurrences, in input order,
of the symbols with successful non-empty history. -/
theorem dictKeys_compare_stocks (env : Env) (symbols : List String) :
    dictKeys (compare_stocks env symbols) = firstDedup (symbols.filter (histOk env)) := by
  rw [compare_stocks, compareLoop_eq_insertFold, dictKeys_insertFold]
  simp [dictKeys_nil]

theorem firstDedup_eq_nil_iff (l : List String) : firstDedup l = [] ↔ l = [] := by
  cases l <;> simp [firstDedup]

/-- The performance map is empty exactly when no symbol of the list has a
successful, non-empty history fetch. -/
theorem compare_stocks_eq_nil_iff (env : Env) (symbols : List String) :
    compare_stocks env symbols = [] ↔ ∀ s ∈ symbols, histOk env s = false := by
  constructor
  · intro h s hs
    have hk : dictKeys (compare_stocks env symbols) = [] := by rw [h]; rfl
    rw [dictKeys_compare_stocks, firstDedup_eq_nil_iff, List.filter_eq_nil_iff] at hk
    have := hk s hs
    simpa using this
  · intro h
    have hk : dictKeys (compare_stocks env symbols) = [] := by
      rw [dictKeys_compare_stocks, firstDedup_eq_nil_iff, List.filter_eq_nil_iff]
      intro s hs
      simp [h s hs]
    have := List.map_eq_nil_iff.mp hk
    exact this

/- ----------------- company analysis helpers ----------------- -/

/-- The prompt `get_company_analysis` sends for one symbol. -/
def companyPromptOf (env : Env) (s : String) : String :=
  companyPrompt (get_company_info env s) (get_company_news env s)

theorem get_company_analysis_eq (env : Env) (s : String) :
    get_company_analysis env s =
      ((ask_groq env (companyPromptOf env s)).1, [companyPromptOf env s]) := by
  simp [get_company_analysis, ask_groq, companyPromptOf]

/-- The dict comprehension of `get_stock_recommendations`: the mapping is the
fold of dict assignment over all occurrences, and the comprehension sends one
completion call per occurrence, in list order. -/
theorem company_dataT_spec (env : Env) (symbols : List String) :
    company_dataT env symbols =
      (symbols.foldl (fun d s => dictInsert d s (get_company_analysis env s).1) [],
       symbols.map (companyPromptOf env)) := by
  rw [company_dataT]
  suffices h : ∀ (syms : List String) (d0 : List (String × String)) (t0 : List String),
      syms.foldl
        (fun p s =>
          let a := get_company_analysis env s
          (dictInsert p.1 s a.1, p.2 ++ a.2)) (d0, t0) =
        (syms.foldl (fun d s => dictInsert d s (get_company_analysis env s).1) d0,
         t0 ++ syms.map (companyPromptOf env)) by
    simpa using h symbols [] []
  intro syms
  induction syms with
  | nil => intro d0 t0; simp
  | cons s rest ih =>
    intro d0 t0
    simp only [List.foldl_cons, List.map_cons, ih]
    rw [get_company_analysis_eq]
    simp [List.append_assoc]

/- ----------------- stage structure lemmas ----------------- -/

theorem get_market_analysis_of_empty (env : Env) (symbols : List String)
    (h : compare_stocks env symbols = []) :
    get_market_analysis env symbols = ("No valid stock data found.", []) := by
  simp [get_market_analysis, h]

theorem get_market_analysis_of_nonempty (env : Env) (symbols : List String)
    (h : ¬ compare_stocks env symbols = []) :
    get_market_analysis env symbols =
      ((ask_groq env (marketPrompt (compare_stocks env symbols))).1,
       [marketPrompt (compare_stocks env symbols)]) := by
  simp [get_market_analysis, h, ask_groq]

theorem get_stock_recommendations_eq (env : Env) (symbols : List String) :
    get_stock_recommendations env symbols =
      ((ask_groq env
          (recsPrompt (get_market_analysis env symbols).1 (company_dataT env symbols).1)).1,
       (get_market_analysis env symbols).2 ++ (company_dataT env symbols).2 ++
         [recsPrompt (get_market_analysis env symbols).1 (company_dataT env symbols).1]) := by
  simp [get_stock_recommendations, ask_groq]

/-- The ordered list of per-symbol company-analysis outputs that
`get_final_report` builds (one entry per occurrence, in input order). -/
def companiesOf (env : Env) (symbols : List String) : List String :=
  symbols.map (fun s => (get_company_analysis env s).1)

theorem companiesT_fst (env : Env) (symbols : List String) :
    (symbols.map (get_company_analysis env)).map (·.1) = companiesOf env symbols := by
  simp [companiesOf, List.map_map]

theorem companiesT_trace (env : Env) (symbols : List String) :
    (symbols.map (get_company_analysis env)).flatMap (·.2) =
      symbols.map (companyPromptOf env) := by
  induction symbols with
  | nil => rfl
  | cons s rest ih =>
    simp only [List.map_cons, List.flatMap_cons, ih, get_company_analysis_eq]
    rfl

theorem get_final_report_eq (env : Env) (symbols : List String) :
    get_final_report env symbols =
      ((ask_groq env
          (finalPrompt (get_market_analysis env symbols).1 (companiesOf env symbols)
            (get_stock_recommendations env symbols).1)).1,
       (get_market_analysis env symbols).2 ++ symbols.map (companyPromptOf env) ++
         (get_stock_recommendations env symbols).2 ++
         [finalPrompt (get_market_analysis env symbols).1 (companiesOf env symbols)
            (get_stock_recommendations env symbols).1]) := by
  rw [get_final_report]
  rw [companiesT_fst, companiesT_trace]
  simp [ask_groq]

theorem get_final_report_trace_getLast (env : Env) (symbols : List String) :
    (get_final_report env symbols).2.getLast? =
      some (finalPrompt (get_market_analysis env symbols).1 (companiesOf env symbols)
        (get_stock_recommendations env symbols).1) := by
  rw [get_final_report_eq]
  exact List.getLast?_concat _

/- ----------------- substring infrastructure ----------------- -/

/-- `a` occurs contiguously inside `b`. -/
def strInfix (a b : String) : Prop := a.data <:+: b.data

instance (a b : String) : Decidable (strInfix a b) :=
  List.decidableInfix a.data b.data

theorem strInfix_refl (a : String) : strInfix a a := ⟨[], [], by simp⟩

theorem strInfix_append_left (a b c : String) (h : strInfix a b) : strInfix a (c ++ b) := by
  obtain ⟨s, t, hst⟩ := h
  exact ⟨c.data ++ s, t, by rw [String.data_append, List.append_assoc, List.append_assoc,
    ← List.append_assoc s, hst]⟩

theorem strInfix_append_right (a b c : String) (h : strInfix a b) : strInfix a (b ++ c) := by
  obtain ⟨s, t, hst⟩ := h
  exact ⟨s, t ++ c.data, by rw [String.data_append, ← hst]; simp [List.append_assoc]⟩

/-- The market-analysis output is embedded verbatim in the final prompt. -/
theorem strInfix_market_finalPrompt (m : String) (c : List String) (r : String) :
    strInfix m (finalPrompt m c r) := by
  rw [finalPrompt]
  refine strInfix_append_right _ _ _ ?_
  refine strInfix_append_right _ _ _ ?_
  refine strInfix_append_right _ _ _ ?_
  refine strInfix_append_right _ _ _ ?_
  refine strInfix_append_right _ _ _ ?_
  exact strInfix_append_left _ _ _ (strInfix_refl m)

/-- The rendered list of company-analysis outputs is embedded in the final
prompt. -/
theorem strInfix_companies_finalPrompt (m : String) (c : List String) (r : String) :
    strInfix (pyReprStrList c) (finalPrompt m c r) := by
  rw [finalPrompt]
  refine strInfix_append_right _ _ _ ?_
  refine strInfix_append_right _ _ _ ?_
  refine strInfix_append_right _ _ _ ?_
  exact strInfix_append_left _ _ _ (strInfix_refl _)

/-- The recommendation output is embedded verbatim in the final prompt. -/
theorem strInfix_recs_finalPrompt (m : String) (c : List String) (r : String) :
    strInfix r (finalPrompt m c r) := by
  rw [finalPrompt]
  refine strInfix_append_right _ _ _ ?_
  exact strInfix_append_left _ _ _ (strInfix_refl r)

/-- Replacing every history-fetch exception by an empty history: the
environment `compare_stocks` cannot distinguish from the original. -/
def errToEmpty (env : Env) : Env :=
  { env with
    hist := fun s =>
      match env.hist s with
      | .error _ => .ok []
      | .ok l => .ok l }

theorem compareLoop_errToEmpty (env : Env) :
    ∀ (syms : List String) (acc : List (String × ℚ)),
      compareLoop env syms acc = compareLoop (errToEmpty env) syms acc := by
  intro syms
  induction syms with
  | nil => intro acc; rfl
  | cons s rest ih =>
    intro acc
    rcases henv : env.hist s with m | h
    · have h2 : (errToEmpty env).hist s = .ok [] := by simp [errToEmpty, henv]
      simp only [compareLoop, henv, h2, if_pos rfl]
      exact ih acc
    · have h2 : (errToEmpty env).hist s = .ok h := by simp [errToEmpty, henv]
      simp only [compareLoop, henv, h2]
      by_cases hempty : h = []
      · simp only [if_pos hempty]; exact ih acc
      · simp only [if_neg hempty]; exact ih _

/- ----------------- environment congruence ----------------- -/

theorem compareLoop_congr (e1 e2 : Env) (hh : ∀ s, e1.hist s = e2.hist s) :
    ∀ (syms : List String) (acc : List (String × ℚ)),
      compareLoop e1 syms acc = compareLoop e2 syms acc := by
  intro syms
  induction syms with
  | nil => intro acc; rfl
  | cons s rest ih =>
    intro acc
    rcases henv : e1.hist s with m | h
    · have h2 : e2.hist s = .error m := by rw [← hh s]; exact henv
      simp only [compareLoop, henv, h2]
      exact ih acc
    · have h2 : e2.hist s = .ok h := by rw [← hh s]; exact henv
      simp only [compareLoop, henv, h2]
      by_cases hempty : h = []
      · simp only [if_pos hempty]; exact ih acc
      · simp only [if_neg hempty]; exact ih _

theorem ask_groq_congr (e1 e2 : Env) (hg : ∀ p, e1.groq p = e2.groq p) (p : String) :
    ask_groq e1 p = ask_groq e2 p := by
  simp [ask_groq, askGroqTry, hg p]

theorem get_company_info_congr (e1 e2 : Env) (hi : ∀ s k, e1.info s k = e2.info s k)
    (s : String) : get_company_info e1 s = get_company_info e2 s := by
  simp [get_company_info, hi]

theorem get_company_news_congr (e1 e2 : Env) (hn : ∀ s, e1.hasNews s = e2.hasNews s)
    (hw : ∀ s, e1.news s = e2.news s) (s : String) :
    get_company_news e1 s = get_company_news e2 s := by
  simp [get_company_news, hn, hw]

theorem get_market_analysis_congr (e1 e2 : Env) (hh : ∀ s, e1.hist s = e2.hist s)
    (hg : ∀ p, e1.groq p = e2.groq p) (symbols : List String) :
    get_market_analysis e1 symbols = get_market_analysis e2 symbols := by
  have hcs : compare_stocks e1 symbols = compare_stocks e2 symbols :=
    compareLoop_congr e1 e2 hh symbols []
  rw [get_market_analysis, get_market_analysis, hcs]
  by_cases hnil : compare_stocks e2 symbols = []
  · simp [hnil]
  · simp only [if_neg hnil]
    exact ask_groq_congr e1 e2 hg _

theorem get_company_analysis_congr (e1 e2 : Env)
    (hi : ∀ s k, e1.info s k = e2.info s k) (hn : ∀ s, e1.hasNews s = e2.hasNews s)
    (hw : ∀ s, e1.news s = e2.news s) (hg : ∀ p, e1.groq p = e2.groq p) (s : String) :
    get_company_analysis e1 s = get_company_analysis e2 s := by
  rw [get_company_analysis, get_company_analysis, get_company_info_congr e1 e2 hi s,
    get_company_news_congr e1 e2 hn hw s]
  exact ask_groq_congr e1 e2 hg _

theorem companyPromptOf_congr (e1 e2 : Env) (hi : ∀ s k, e1.info s k = e2.info s k)
    (hn : ∀ s, e1.hasNews s = e2.hasNews s) (hw : ∀ s, e1.news s = e2.news s)
    (s : String) : companyPromptOf e1 s = companyPromptOf e2 s := by
  rw [companyPromptOf, companyPromptOf, get_company_info_congr e1 e2 hi s,
    get_company_news_congr e1 e2 hn hw s]

theorem company_dataT_congr (e1 e2 : Env)
    (hi : ∀ s k, e1.info s k = e2.info s k) (hn : ∀ s, e1.hasNews s = e2.hasNews s)
    (hw : ∀ s, e1.news s = e2.news s) (hg : ∀ p, e1.groq p = e2.groq p)
    (symbols : List String) :
    company_dataT e1 symbols = company_dataT e2 symbols := by
  rw [company_dataT_spec, company_dataT_spec]
  have hfa : (fun (d : List (String × String)) s =>
      dictInsert d s (get_company_analysis e1 s).1)
      = fun d s => dictInsert d s (get_company_analysis e2 s).1 := by
    funext d s
    rw [get_company_analysis_congr e1 e2 hi hn hw hg s]
  have hfp : companyPromptOf e1 = companyPromptOf e2 :=
    funext (companyPromptOf_congr e1 e2 hi hn hw)
  rw [hfa, hfp]

theorem get_stock_recommendations_congr (e1 e2 : Env)
    (hh : ∀ s, e1.hist s = e2.hist s) (hi : ∀ s k, e1.info s k = e2.info s k)
    (hn : ∀ s, e1.hasNews s = e2.hasNews s) (hw : ∀ s, e1.news s = e2.news s)
    (hg : ∀ p, e1.groq p = e2.groq p) (symbols : List String) :
    get_stock_recommendations e1 symbols = get_stock_recommendations e2 symbols := by
  rw [get_stock_recommendations_eq, get_stock_recommendations_eq,
    get_market_analysis_congr e1 e2 hh hg symbols,
    company_dataT_congr e1 e2 hi hn hw hg symbols,
    ask_groq_congr e1 e2 hg _]

theorem companiesOf_congr (e1 e2 : Env)
    (hi : ∀ s k, e1.info s k = e2.info s k) (hn : ∀ s, e1.hasNews s = e2.hasNews s)
    (hw : ∀ s, e1.news s = e2.news s) (hg : ∀ p, e1.groq p = e2.groq p)
    (symbols : List String) :
    companiesOf e1 symbols = companiesOf e2 symbols := by
  rw [companiesOf, companiesOf]
  have hfn : (fun s => (get_company_analysis e1 s).1)
      = fun s => (get_company_analysis e2 s).1 := by
    funext s
    rw [get_company_analysis_congr e1 e2 hi hn hw hg s]
  rw [hfn]

theorem get_final_report_congr (e1 e2 : Env)
    (hh : ∀ s, e1.hist s = e2.hist s) (hi : ∀ s k, e1.info s k = e2.info s k)
    (hn : ∀ s, e1.hasNews s = e2.hasNews s) (hw : ∀ s, e1.news s = e2.news s)
    (hg : ∀ p, e1.groq p = e2.groq p) (symbols : List String) :
    get_final_report e1 symbols = get_final_report e2 symbols := by
  rw [get_final_report_eq, get_final_report_eq,
    get_market_analysis_congr e1 e2 hh hg symbols,
    companiesOf_congr e1 e2 hi hn hw hg symbols,
    get_stock_recommendations_congr e1 e2 hh hi hn hw hg symbols,
    funext (companyPromptOf_congr e1 e2 hi hn hw),
    ask_groq_congr e1 e2 hg _]

/- ----------------- agreement of the two translations ----------------- -/

theorem get_company_analysisE_agree (env : Env) (s : String)
    (h1 : env.infoRaises s = none) (h2 : env.newsRaises s = none) :
    get_company_analysisE env s = .ok (get_company_analysis env s) := by
  simp [get_company_analysisE, get_company_infoE, get_company_newsE, h1, h2,
    get_company_analysis]

theorem companiesE_agree (env : Env) :
    ∀ (symbols : List String),
      (∀ s ∈ symbols, env.infoRaises s = none ∧ env.newsRaises s = none) →
      companiesE env symbols = .ok (symbols.map (get_company_analysis env)) := by
  intro symbols
  induction symbols with
  | nil => intro _; rfl
  | cons s rest ih =>
    intro h
    have hs := h s (List.mem_cons_self s rest)
    simp only [companiesE, get_company_analysisE_agree env s hs.1 hs.2,
      ih (fun x hx => h x (List.mem_cons_of_mem s hx)), List.map_cons]

theorem company_dataE_agree (env : Env) :
    ∀ (symbols : List String) (acc : List (String × String) × List String),
      (∀ s ∈ symbols, env.infoRaises s = none ∧ env.newsRaises s = none) →
      company_dataE env symbols acc =
        .ok (symbols.foldl
          (fun p s =>
            let a := get_company_analysis env s
            (dictInsert p.1 s a.1, p.2 ++ a.2)) acc) := by
  intro symbols
  induction symbols with
  | nil => intro acc _; rfl
  | cons s rest ih =>
    intro acc h
    have hs := h s (List.mem_cons_self s rest)
    simp only [company_dataE, get_company_analysisE_agree env s hs.1 hs.2,
      List.foldl_cons]
    exact ih _ (fun x hx => h x (List.mem_cons_of_mem s hx))

theorem get_stock_recommendationsE_agree (env : Env) (symbols : List String)
    (h : ∀ s ∈ symbols, env.infoRaises s = none ∧ env.newsRaises s = none) :
    get_stock_recommendationsE env symbols =
      .ok (get_stock_recommendations env symbols) := by
  simp only [get_stock_recommendationsE, company_dataE_agree env symbols ([], []) h]
  rfl

/-- On an environment where no profile or news access raises, the
exception-propagating translation completes and returns exactly the total
run's result. -/
theorem get_final_reportE_agree (env : Env) (symbols : List String)
    (h : ∀ s ∈ symbols, env.infoRaises s = none ∧ env.newsRaises s = none) :
    get_final_reportE env symbols = .ok (get_final_report env symbols) := by
  simp only [get_final_reportE, companiesE_agree env symbols h,
    get_stock_recommendationsE_agree env symbols h]
  rfl

/- ----------------- concrete environments ----------------- -/

/-- Histories for a two-symbol check: "A" has prices, everything else none. -/
def hfA : String → List ℚ := fun s => if s = "A" then [1, 2] else []

/-- Environment where only "A" has history and the backend always answers. -/
def cenvA : Env :=
  { hist := fun s => Except.ok (hfA s)
    infoRaises := fun _ => none
    info := fun _ _ => none
    newsRaises := fun _ => none
    hasNews := fun _ => false
    news := fun _ => []
    groq := fun _ => .success "ok" }

/-- Environment where every symbol has empty history and the backend always
answers "OK". -/
def cenvEmpty : Env :=
  { hist := fun _ => Except.ok []
    infoRaises := fun _ => none
    info := fun _ _ => none
    newsRaises := fun _ => none
    hasNews := fun _ => false
    news := fun _ => []
    groq := fun _ => .success "OK" }

/-- Environment whose completion backend always fails at the network layer. -/
def cenvFail : Env :=
  { cenvEmpty with groq := fun _ => .postRaises "boom" }

/- ----------------- Claim C1 ----------------- -/

/-- Claim C1: when the market-data provider answers every history fetch, the
performance map of `compare_stocks` contains exactly the input symbols whose
fetched 6-month history is non-empty, each mapped to `pctChangeSum` of its
closing prices (the plain sum of successive period-over-period percentage
changes, not a compound return); a symbol with empty history is absent
(lookup yields `none`), never present with a null or zero value. -/
theorem c1_performance_map (env : Env) (hf : String → List ℚ)
    (henv : env.hist = fun s => Except.ok (hf s))
    (symbols : List String) (x : String) :
    dictLookup (compare_stocks env symbols) x =
      if x ∈ symbols ∧ hf x ≠ [] then some (pctChangeSum (hf x)) else none := by
  rw [dictLookup_compare_stocks]
  have hok : histOk env x = !(hf x = [] : Bool) := by simp [histOk, henv]
  have hval : pctVal env x = pctChangeSum (hf x) := by simp [pctVal, henv]
  rw [hval, hok]
  by_cases hx : x ∈ symbols <;> by_cases hfx : hf x = [] <;> simp [hx, hfx]

/-- Witness for C1 at a concrete input: symbol "A" with history `[1, 2]` is
present with value `pctChangeSum [1, 2]`, symbol "B" with empty history is
absent. -/
theorem c1_performance_map_witness :
    dictLookup (compare_stocks cenvA ["A", "B"]) "A" = some (pctChangeSum [1, 2]) ∧
    dictLookup (compare_stocks cenvA ["A", "B"]) "B" = none := by
  constructor
  · have h := c1_performance_map cenvA hfA rfl ["A", "B"] "A"
    rw [if_pos ⟨by decide, by decide⟩] at h
    exact h
  · have h := c1_performance_map cenvA hfA rfl ["A", "B"] "B"
    rw [if_neg ?_] at h
    · exact h
    · intro hand
      exact hand.2 (by decide)

/- ----------------- Claim C10 ----------------- -/

/-- Claim C10: `compare_stocks` is total for every provider behaviour (the
per-symbol `try`/`except` is the `Except.error` branch of the loop, which
skips the symbol): a symbol whose fetch raises is treated exactly as a symbol
with empty history — replacing every fetch exception by an empty history
leaves the result unchanged — and the returned map's keys are the first
occurrences, in input order, of the symbols with successful non-empty
history. -/
theorem c10_compare_stocks_total (env : Env) (symbols : List String) :
    dictKeys (compare_stocks env symbols) = firstDedup (symbols.filter (histOk env)) ∧
    compare_stocks env symbols = compare_stocks (errToEmpty env) symbols := by
  refine ⟨dictKeys_compare_stocks env symbols, ?_⟩
  rw [compare_stocks, compare_stocks]
  exact compareLoop_errToEmpty env symbols []

/- ----------------- Claim C2 ----------------- -/

/-- Counterexample to C2 as stated: the code's sentinel is
`"No valid stock data found."` (with a trailing period), not the claim's
`"No valid stock data found"`; the zero-call part does hold on this input. -/
theorem c2_sentinel_counterexample :
    (get_market_analysis cenvEmpty ["A"]).2 = [] ∧
    ¬ (get_market_analysis cenvEmpty ["A"]).1 = "No valid stock data found" := by
  decide

/-- Claim C2 (amended: the sentinel text carries a trailing period,
`"No valid stock data found."`): when every symbol's history is empty the
stage returns the sentinel and issues zero completion calls; when some
symbol has non-empty history it issues exactly one completion call, whose
prompt is `marketPrompt` of the performance map (the prompt embedding the
map's rendering). -/
theorem c2_market_analysis (env : Env) (symbols : List String) :
    ((∀ s ∈ symbols, histOk env s = false) →
      get_market_analysis env symbols = ("No valid stock data found.", [])) ∧
    ((∃ s ∈ symbols, histOk env s = true) →
      get_market_analysis env symbols =
        ((ask_groq env (marketPrompt (compare_stocks env symbols))).1,
         [marketPrompt (compare_stocks env symbols)])) := by
  constructor
  · intro h
    exact get_market_analysis_of_empty env symbols
      ((compare_stocks_eq_nil_iff env symbols).mpr h)
  · rintro ⟨s, hs, hok⟩
    refine get_market_analysis_of_nonempty env symbols (fun hnil => ?_)
    have hfalse := (compare_stocks_eq_nil_iff env symbols).mp hnil s hs
    rw [hok] at hfalse
    exact Bool.noConfusion hfalse

/-- Witness for amended C2 at concrete inputs: the all-empty environment
short-circuits with no calls; the environment where "A" has history issues
the single market-analysis call. -/
theorem c2_market_analysis_witness :
    get_market_analysis cenvEmpty ["A"] = ("No valid stock data found.", []) ∧
    get_market_analysis cenvA ["A"] =
      ((ask_groq cenvA (marketPrompt (compare_stocks cenvA ["A"]))).1,
       [marketPrompt (compare_stocks cenvA ["A"])]) :=
  ⟨(c2_market_analysis cenvEmpty ["A"]).1 (fun _ _ => rfl),
   (c2_market_analysis cenvA ["A"]).2 ⟨"A", by decide, by decide⟩⟩

/- ----------------- Claim C3 ----------------- -/

/-- Claim C3: `ask_groq` returns a string for every backend behaviour — the
`try`/`except` catches the network-layer exception, the non-2xx
`raise_for_status` exception and the malformed-response extraction exception —
and on any of these failures the returned string is exactly
`"Groq API Error: "` followed by the exception text, so it carries the
error-marker prefix identifying the completion service. -/
theorem c3_ask_groq_fail_soft (env : Env) (p : String) :
    (∀ c, env.groq p = .success c → ask_groq env p = (c, [p])) ∧
    (∀ m, (env.groq p = .postRaises m ∨ env.groq p = .badStatus m ∨
            env.groq p = .badShape m) →
      ask_groq env p = ("Groq API Error: " ++ m, [p]) ∧
      ∃ rest, (ask_groq env p).1 = "Groq API Error: " ++ rest) := by
  constructor
  · intro c hc
    simp [ask_groq, askGroqTry, hc]
  · intro m hm
    rcases hm with h | h | h <;>
      exact ⟨by simp [ask_groq, askGroqTry, h], m, by simp [ask_groq, askGroqTry, h]⟩

/-- Witness for C3 at concrete inputs: a network failure becomes the prefixed
error string; a success passes the generated text through. -/
theorem c3_ask_groq_fail_soft_witness :
    ask_groq cenvFail "p" = ("Groq API Error: boom", ["p"]) ∧
    ask_groq cenvEmpty "p" = ("OK", ["p"]) :=
  ⟨((c3_ask_groq_fail_soft cenvFail "p").2 "boom" (Or.inl rfl)).1,
   (c3_ask_groq_fail_soft cenvEmpty "p").1 "OK" rfl⟩

/- ----------------- Claim C4 ----------------- -/

/-- Environment whose provider raises "boom" whenever a profile record is
accessed. -/
def cenvInfoBoom : Env :=
  { cenvEmpty with infoRaises := fun _ => some "boom" }

/-- Counterexample to C4 as stated, on both counts.  (1) `get_company_info`
and `get_company_news` have no exception handler in the source, so a provider
exception raised by the `stock.info` access propagates out of
`get_final_report` to the caller: with one symbol whose profile access raises
"boom", the run is `Except.error "boom"`, not a Report string.  (2) With an
empty symbol list and a backend that answers "OK", the run completes but the
returned Report is "OK" — the backend's completion of the final prompt — and
does not state that no valid data was found (it does not even contain the
fragment "No valid"). -/
theorem c4_exception_counterexample :
    get_final_reportE cenvInfoBoom ["A"] = Except.error "boom" ∧
    get_final_reportE cenvEmpty [] = Except.ok (get_final_report cenvEmpty []) ∧
    (get_final_report cenvEmpty []).1 = "OK" ∧
    ¬ strInfix "No valid" (get_final_report cenvEmpty []).1 := by
  refine ⟨rfl, get_final_reportE_agree cenvEmpty [] (fun s hs => nomatch hs),
    by decide, by decide⟩

/-- Claim C4 (amended): exceptions are absorbed only on the history-fetch and
completion paths — `get_final_report` propagates a provider exception raised
during any symbol's profile or news access, because `get_company_info` and
`get_company_news` have no handler.  When no profile or news access raises,
the run returns a Report string without raising (`get_final_reportE` agrees
with the total run), and when additionally the symbol list is empty or no
symbol has usable market data, the sentinel "No valid stock data found."
appears in the composed final prompt — the last completion call of the run —
whose completion output is the returned Report; the Report itself is whatever
the backend answers to that prompt, not necessarily text stating that no
valid data was found. -/
theorem c4_degraded_report (env : Env) (symbols : List String)
    (hexn : ∀ s ∈ symbols, env.infoRaises s = none ∧ env.newsRaises s = none)
    (h : ∀ s ∈ symbols, histOk env s = false) :
    get_final_reportE env symbols = Except.ok (get_final_report env symbols) ∧
    ∃ fp, (get_final_report env symbols).2.getLast? = some fp ∧
      strInfix "No valid stock data found." fp ∧
      (get_final_report env symbols).1 = (ask_groq env fp).1 := by
  refine ⟨get_final_reportE_agree env symbols hexn, ?_⟩
  have hnil : compare_stocks env symbols = [] :=
    (compare_stocks_eq_nil_iff env symbols).mpr h
  have hma := get_market_analysis_of_empty env symbols hnil
  refine ⟨finalPrompt (get_market_analysis env symbols).1 (companiesOf env symbols)
      (get_stock_recommendations env symbols).1,
    get_final_report_trace_getLast env symbols, ?_, ?_⟩
  · rw [hma]
    exact strInfix_market_finalPrompt _ _ _
  · rw [get_final_report_eq]

/-- Witness for amended C4 at a concrete input: one symbol, empty history,
no provider exception on the profile or news access. -/
theorem c4_degraded_report_witness :
    get_final_reportE cenvEmpty ["Z"] = Except.ok (get_final_report cenvEmpty ["Z"]) ∧
    ∃ fp, (get_final_report cenvEmpty ["Z"]).2.getLast? = some fp ∧
      strInfix "No valid stock data found." fp ∧
      (get_final_report cenvEmpty ["Z"]).1 = (ask_groq cenvEmpty fp).1 :=
  c4_degraded_report cenvEmpty ["Z"] (fun _ _ => ⟨rfl, rfl⟩) (fun _ _ => rfl)

/- ----------------- Claim C5 ----------------- -/

/-- Counterexample to C5 as stated: for the one-symbol list ["A"] with
non-empty history, one `get_final_report` invocation issues 6 completion
calls, not N + 3 = 4. -/
theorem c5_call_count_counterexample :
    (get_final_report cenvA ["A"]).2.length = 6 ∧
    ¬ (get_final_report cenvA ["A"]).2.length = ["A"].length + 3 := by
  decide

/-- Claim C5 (amended): for a non-empty list of N symbols all with non-empty
history, one `get_final_report` invocation issues 2N + 4 completion calls:
1 (market analysis) + N (company analyses) + (1 + N + 1) (the recommendation
stage recomputing the market analysis and all company analyses before its own
call) + 1 (the final call). -/
theorem c5_call_count (env : Env) (symbols : List String)
    (hne : symbols ≠ [])
    (h : ∀ s ∈ symbols, histOk env s = true) :
    (get_final_report env symbols).2.length = 2 * symbols.length + 4 := by
  have hnonnil : ¬ compare_stocks env symbols = [] := by
    intro hnil
    rcases symbols with _ | ⟨s, rest⟩
    · exact hne rfl
    · have hfalse := (compare_stocks_eq_nil_iff env _).mp hnil s (List.mem_cons_self s rest)
      rw [h s (List.mem_cons_self s rest)] at hfalse
      exact Bool.noConfusion hfalse
  rw [get_final_report_eq, get_stock_recommendations_eq,
    get_market_analysis_of_nonempty env symbols hnonnil, company_dataT_spec]
  simp only [List.length_append, List.length_map, List.length_cons, List.length_nil]
  omega

/-- Witness for amended C5 at a concrete input: N = 1 gives 6 calls. -/
theorem c5_call_count_witness :
    (get_final_report cenvA ["A"]).2.length = 2 * (["A"].length) + 4 :=
  c5_call_count cenvA ["A"] (by decide)
    (by
      intro s hs
      rw [List.mem_singleton] at hs
      subst hs
      decide)

/- ----------------- Claim C6 ----------------- -/

/-- The company prompt produced for symbol "A" when the provider has no
profile record and no news. -/
def c6prompt : String := companyPrompt ⟨"A", "N/A", "N/A", "N/A"⟩ []

/-- Environment for the C6 counterexample: the backend answers the company
prompt for "A" with a two-line text and answers "m" to everything else. -/
def cenvC6 : Env :=
  { hist := fun _ => Except.ok []
    infoRaises := fun _ => none
    info := fun _ _ => none
    newsRaises := fun _ => none
    hasNews := fun _ => false
    news := fun _ => []
    groq := fun p => .success (if p = c6prompt then "x\ny" else "m") }

set_option maxRecDepth 100000 in
/-- Counterexample to C6 as stated: the CompanyAnalysis output "x\ny" (with a
literal newline) is NOT textually contained in the final prompt — the prompt
interpolates the Python list of outputs with `repr`, which escapes the
newline to the two characters backslash-n. -/
theorem c6_verbatim_counterexample :
    (get_company_analysis cenvC6 "A").1 = "x\ny" ∧
    (get_final_report cenvC6 ["A"]).2.getLast? =
      some (finalPrompt (get_market_analysis cenvC6 ["A"]).1 (companiesOf cenvC6 ["A"])
        (get_stock_recommendations cenvC6 ["A"]).1) ∧
    ¬ strInfix "x\ny"
        (finalPrompt (get_market_analysis cenvC6 ["A"]).1 (companiesOf cenvC6 ["A"])
          (get_stock_recommendations cenvC6 ["A"]).1) := by
  refine ⟨by decide, get_final_report_trace_getLast cenvC6 ["A"], by decide⟩

/-- Claim C6 (amended): the FinalReport prompt — the last completion call of
the invocation — contains the MarketAnalysis output verbatim, the
Recommendation output verbatim, and the Python `str` rendering of the ordered
list of CompanyAnalysis outputs, one entry per symbol occurrence in original
order; an individual CompanyAnalysis output appears inside that rendering
`repr`-escaped, so an output containing quotes, backslashes or newlines need
not appear verbatim. -/
theorem c6_final_prompt_contents (env : Env) (symbols : List String) :
    (get_final_report env symbols).2.getLast? =
      some (finalPrompt (get_market_analysis env symbols).1 (companiesOf env symbols)
        (get_stock_recommendations env symbols).1) ∧
    strInfix (get_market_analysis env symbols).1
      (finalPrompt (get_market_analysis env symbols).1 (companiesOf env symbols)
        (get_stock_recommendations env symbols).1) ∧
    strInfix (pyReprStrList (companiesOf env symbols))
      (finalPrompt (get_market_analysis env symbols).1 (companiesOf env symbols)
        (get_stock_recommendations env symbols).1) ∧
    strInfix (get_stock_recommendations env symbols).1
      (finalPrompt (get_market_analysis env symbols).1 (companiesOf env symbols)
        (get_stock_recommendations env symbols).1) ∧
    companiesOf env symbols = symbols.map (fun s => (get_company_analysis env s).1) :=
  ⟨get_final_report_trace_getLast env symbols,
   strInfix_market_finalPrompt _ _ _,
   strInfix_companies_finalPrompt _ _ _,
   strInfix_recs_finalPrompt _ _ _,
   rfl⟩

/- ----------------- Claim C7 ----------------- -/

/-- Counterexample to C7 as stated: for a symbol with an entirely missing
provider profile record, the `name` field falls back to the symbol itself —
`"ZZZZINVALID"`, not `"N/A"`; only the other three fields degrade to "N/A". -/
theorem c7_name_fallback_counterexample :
    get_company_info cenvEmpty "ZZZZINVALID" =
      ⟨"ZZZZINVALID", "N/A", "N/A", "N/A"⟩ ∧
    ¬ (get_company_info cenvEmpty "ZZZZINVALID").name = "N/A" := by
  decide

/-- Claim C7 (amended): each of the four profile fields degrades
independently when its key is missing — `name` falls back to the symbol
itself, while `sector`, `market_cap` and `summary` fall back to the "N/A"
sentinel — and a present key always wins over the fallback; no missing field
fails the whole profile. -/
theorem c7_profile_fallbacks (env : Env) (s : String) :
    ((env.info s "longName" = none → (get_company_info env s).name = s) ∧
     ∀ v, env.info s "longName" = some v → (get_company_info env s).name = v) ∧
    ((env.info s "sector" = none → (get_company_info env s).sector = "N/A") ∧
     ∀ v, env.info s "sector" = some v → (get_company_info env s).sector = v) ∧
    ((env.info s "marketCap" = none → (get_company_info env s).market_cap = "N/A") ∧
     ∀ v, env.info s "marketCap" = some v → (get_company_info env s).market_cap = v) ∧
    ((env.info s "longBusinessSummary" = none → (get_company_info env s).summary = "N/A") ∧
     ∀ v, env.info s "longBusinessSummary" = some v →
       (get_company_info env s).summary = v) := by
  refine ⟨⟨?_, ?_⟩, ⟨?_, ?_⟩, ⟨?_, ?_⟩, ⟨?_, ?_⟩⟩
  · intro h; simp [get_company_info, h]
  · intro v h; simp [get_company_info, h]
  · intro h; simp [get_company_info, h]
  · intro v h; simp [get_company_info, h]
  · intro h; simp [get_company_info, h]
  · intro v h; simp [get_company_info, h]
  · intro h; simp [get_company_info, h]
  · intro v h; simp [get_company_info, h]

/-- Witness for amended C7 at a concrete input: the all-missing profile. -/
theorem c7_profile_fallbacks_witness :
    (get_company_info cenvEmpty "ZZZZINVALID").name = "ZZZZINVALID" ∧
    (get_company_info cenvEmpty "ZZZZINVALID").sector = "N/A" ∧
    (get_company_info cenvEmpty "ZZZZINVALID").market_cap = "N/A" ∧
    (get_company_info cenvEmpty "ZZZZINVALID").summary = "N/A" :=
  ⟨(c7_profile_fallbacks cenvEmpty "ZZZZINVALID").1.1 rfl,
   (c7_profile_fallbacks cenvEmpty "ZZZZINVALID").2.1.1 rfl,
   (c7_profile_fallbacks cenvEmpty "ZZZZINVALID").2.2.1.1 rfl,
   (c7_profile_fallbacks cenvEmpty "ZZZZINVALID").2.2.2.1 rfl⟩

/- ----------------- Claim C8 ----------------- -/

/-- Claim C8: the whole run — the Report and the full ordered sequence of
composed prompts of every stage — is a deterministic pure function of the
symbol list and the providers' responses: two environments that answer every
market-data query and every completion request identically yield identical
outputs and identical prompts at every stage.  There is no other input in the
embedding (no timestamp, no randomness). -/
theorem c8_prompt_determinism (e1 e2 : Env) (symbols : List String)
    (hh : ∀ s, e1.hist s = e2.hist s)
    (hi : ∀ s k, e1.info s k = e2.info s k)
    (hn : ∀ s, e1.hasNews s = e2.hasNews s)
    (hw : ∀ s, e1.news s = e2.news s)
    (hg : ∀ p, e1.groq p = e2.groq p) :
    get_final_report e1 symbols = get_final_report e2 symbols ∧
    get_market_analysis e1 symbols = get_market_analysis e2 symbols ∧
    (∀ s, get_company_analysis e1 s = get_company_analysis e2 s) ∧
    get_stock_recommendations e1 symbols = get_stock_recommendations e2 symbols :=
  ⟨get_final_report_congr e1 e2 hh hi hn hw hg symbols,
   get_market_analysis_congr e1 e2 hh hg symbols,
   fun s => get_company_analysis_congr e1 e2 hi hn hw hg s,
   get_stock_recommendations_congr e1 e2 hh hi hn hw hg symbols⟩

/-- A syntactically different presentation of `cenvA`: pointwise equal
responses. -/
def cenvA2 : Env :=
  { hist := fun s => if s = "A" then Except.ok [1, 2] else Except.ok []
    infoRaises := fun _ => none
    info := fun _ _ => none
    newsRaises := fun _ => none
    hasNews := fun _ => false
    news := fun _ => []
    groq := fun _ => .success "ok" }

/-- Witness for C8 at a concrete input: two differently-written environments
with identical responses produce the identical report and prompts. -/
theorem c8_prompt_determinism_witness :
    get_final_report cenvA ["A", "B"] = get_final_report cenvA2 ["A", "B"] ∧
    get_market_analysis cenvA ["A", "B"] = get_market_analysis cenvA2 ["A", "B"] ∧
    (∀ s, get_company_analysis cenvA s = get_company_analysis cenvA2 s) ∧
    get_stock_recommendations cenvA ["A", "B"] = get_stock_recommendations cenvA2 ["A", "B"] :=
  c8_prompt_determinism cenvA cenvA2 ["A", "B"]
    (fun s => by by_cases h : s = "A" <;> simp [cenvA, cenvA2, hfA, h])
    (fun _ _ => rfl) (fun _ => rfl) (fun _ => rfl) (fun _ => rfl)

/- ----------------- Claim C9 ----------------- -/

/-- Counterexample to C9 as stated: for the duplicated list ["A", "A"] the
FinalReport stage's list has one CompanyAnalysis entry per occurrence (two),
but the Recommendation stage's mapping is a dict keyed by symbol, so it has a
single entry — it does not reflect every occurrence. -/
theorem c9_duplicates_counterexample :
    (companiesOf cenvA ["A", "A"]).length = 2 ∧
    dictKeys (company_dataT cenvA ["A", "A"]).1 = ["A"] ∧
    ¬ (dictKeys (company_dataT cenvA ["A", "A"]).1).length = 2 := by
  refine ⟨rfl, ?_, by decide⟩
  rw [company_dataT_spec]
  decide

/-- Claim C9 (amended): duplicates are not deduplicated in the per-occurrence
work and in the FinalReport list — the final prompt embeds one CompanyAnalysis
output per occurrence in original order, and the Recommendation stage's dict
comprehension invokes CompanyAnalysis once per occurrence in order — but the
Recommendation stage's mapping itself, being a dict keyed by symbol, keeps one
entry per distinct symbol, in first-occurrence order. -/
theorem c9_duplicates_shape (env : Env) (symbols : List String) :
    (get_final_report env symbols).2.getLast? =
      some (finalPrompt (get_market_analysis env symbols).1
        (symbols.map (fun s => (get_company_analysis env s).1))
        (get_stock_recommendations env symbols).1) ∧
    (company_dataT env symbols).2 = symbols.map (companyPromptOf env) ∧
    dictKeys (company_dataT env symbols).1 = firstDedup symbols := by
  refine ⟨get_final_report_trace_getLast env symbols, ?_, ?_⟩
  · rw [company_dataT_spec]
  · rw [company_dataT_spec]
    show dictKeys (symbols.foldl
      (fun d s => dictInsert d s (get_company_analysis env s).1) []) = firstDedup symbols
    rw [dictKeys_insertFold]
    simp [dictKeys_nil]
